import Mathlib

/-!
Verification of the jsonway declarative JSON-construction DSL and its fuzz
harness (`src/fuzz/fuzz_targets/json_fuzzer.rs`).

The repository ships only the fuzz harness as source; the library itself
(ObjectBuilder, ArrayBuilder, Serializer, the top-level `jsonway::object` /
`jsonway::array` entry points) is declared and called but its code is not in
the tree, so those components are modelled from the specification, as marked
on each definition.  The harness functions (`extract_value`,
`generate_random_number`, `fuzz_deeply_nested_object`,
`fuzz_deeply_nested_array`, the `fuzz_target` dispatcher) are translated
directly from the Rust source.

Conventions of the embedding:
- a Rust byte slice `&[u8]` becomes `List Nat` whose elements are byte
  values; the harness only ever reads bytes and applies `%`, which agrees
  with `Nat` arithmetic on values below 256;
- a `&mut usize` index threaded through the harness becomes explicit state
  passing: each function returns its result paired with the updated index;
- `serde_json::Value` becomes the inductive `Value`; numbers only ever come
  from `u8 as i64` in this harness, so the numeric payload is `Int`;
- `serde_json::Map` is abstracted as an association list with
  replace-or-append insertion; no claim under study depends on the entry
  order of these maps.
-/

/-- The external JSON value type (`serde_json::Value`): Null, Bool, Number,
String, ordered Array, and Object as an ordered mapping from String to
Value. -/
inductive Value where
  | null : Value
  | bool : Bool → Value
  | num : Int → Value
  | str : String → Value
  | arr : List Value → Value
  | obj : List (String × Value) → Value

/-- Insert into an ordered String-keyed mapping: replace the value at the
first occurrence of the key, keeping its position, or append the pair at the
end when the key is absent (map-insert semantics of an ordered mapping). -/
def mapInsert : List (String × Value) → String → Value → List (String × Value)
  | [], k, v => [(k, v)]
  | (k', v') :: rest, k, v =>
      if k' = k then (k, v) :: rest else (k', v') :: mapInsert rest k v

/-- Number of entries of the mapping whose key is `k`. -/
def countKey (k : String) : List (String × Value) → Nat
  | [] => 0
  | (k', _) :: rest => (if k' = k then 1 else 0) + countKey k rest

/-- First value bound to `k` in the mapping, if any. -/
def lookupKey (k : String) : List (String × Value) → Option Value
  | [] => none
  | (k', v) :: rest => if k' = k then some v else lookupKey k rest

/-- Modelled from the spec: the error of the conversion layer (the library code is
not under src/).  A value that the underlying value-conversion layer cannot
represent surfaces as this error from the top-level entry points. -/
structure JsonWayError where
  msg : String
  deriving Repr, DecidableEq

/-- Modelled from the spec: `ObjectBuilder` wraps a mutable Object-in-progress
(the library code is not under src/). -/
structure ObjectBuilder where
  entries : List (String × Value)

/-- Modelled from the spec: `ArrayBuilder` wraps a mutable ordered
sequence-in-progress (the library code is not under src/). -/
structure ArrayBuilder where
  elems : List Value

/-- Modelled from the spec: the conversion contract from common primitive
types into `Value` (the Rust `Into<Value>` bound on `set` / `push`). -/
class IntoValue (α : Type) where
  intoValue : α → Value

instance : IntoValue Value := ⟨id⟩

instance : IntoValue String := ⟨Value.str⟩

instance : IntoValue Bool := ⟨Value.bool⟩

instance : IntoValue Int := ⟨Value.num⟩

/-- Modelled from the spec: `ObjectBuilder::new()` — empty builder, no
entries. -/
def ObjectBuilder.new : ObjectBuilder := ⟨[]⟩

/-- Modelled from the spec: `set(key, value)` inserts/overwrites `key`
(last-write-wins), after converting the value into a `Value`. -/
def ObjectBuilder.set {α : Type} [IntoValue α] (b : ObjectBuilder)
    (key : String) (value : α) : ObjectBuilder :=
  ⟨mapInsert b.entries key (IntoValue.intoValue value)⟩

/-- Modelled from the spec: `unwrap()` finalizes the builder into the
completed Object value. -/
def ObjectBuilder.unwrap (b : ObjectBuilder) : Value := Value.obj b.entries

/-- Modelled from the spec: `ArrayBuilder::new()` — empty sequence. -/
def ArrayBuilder.new : ArrayBuilder := ⟨[]⟩

/-- Modelled from the spec: `push(value)` appends one element convertible to
`Value`, preserving call order. -/
def ArrayBuilder.push {α : Type} [IntoValue α] (b : ArrayBuilder)
    (value : α) : ArrayBuilder :=
  ⟨b.elems ++ [IntoValue.intoValue value]⟩

/-- Modelled from the spec: `push_json(value)` appends a pre-built `Value`
directly. -/
def ArrayBuilder.push_json (b : ArrayBuilder) (value : Value) : ArrayBuilder :=
  ⟨b.elems ++ [value]⟩

/-- Modelled from the spec: `ArrayBuilder::unwrap()` finalizes into the
completed Array value. -/
def ArrayBuilder.unwrap (b : ArrayBuilder) : Value := Value.arr b.elems

/-- Modelled from the spec: `ObjectBuilder::object(key, configure)` opens a
fresh nested ObjectBuilder, runs the configuration closure on it, finalizes
it, and stores the result under `key` via `set`. -/
def ObjectBuilder.object (b : ObjectBuilder) (key : String)
    (configure : ObjectBuilder → ObjectBuilder) : ObjectBuilder :=
  b.set key (configure ObjectBuilder.new).unwrap

/-- Modelled from the spec: `ObjectBuilder::array(key, configure)` —
symmetric to `object`, for array-valued fields. -/
def ObjectBuilder.array (b : ObjectBuilder) (key : String)
    (configure : ArrayBuilder → ArrayBuilder) : ObjectBuilder :=
  b.set key (configure ArrayBuilder.new).unwrap

/-- Modelled from the spec: `ArrayBuilder::object(configure)` — nested object
sub-scope, finalized result appended. -/
def ArrayBuilder.object (b : ArrayBuilder)
    (configure : ObjectBuilder → ObjectBuilder) : ArrayBuilder :=
  b.push_json (configure ObjectBuilder.new).unwrap

/-- Modelled from the spec: `ArrayBuilder::array(configure)` — nested array
sub-scope, finalized result appended. -/
def ArrayBuilder.array (b : ArrayBuilder)
    (configure : ArrayBuilder → ArrayBuilder) : ArrayBuilder :=
  b.push_json (configure ArrayBuilder.new).unwrap

/-- Modelled from the spec: `ArrayBuilder::objects(source, configure)` — for
each item of `source` in iteration order, opens a fresh ObjectBuilder, runs
`configure item` on it, finalizes, and appends the resulting Object. -/
def ArrayBuilder.objects {α : Type} (b : ArrayBuilder) (source : List α)
    (configure : α → ObjectBuilder → ObjectBuilder) : ArrayBuilder :=
  source.foldl
    (fun acc item => acc.push_json (configure item ObjectBuilder.new).unwrap) b

/-- A finite sequence of `push` calls on an ArrayBuilder, each appending a
pre-built `Value` (the shape the order-preservation property quantifies
over). -/
def ArrayBuilder.pushAll (b : ArrayBuilder) (values : List Value) : ArrayBuilder :=
  values.foldl ArrayBuilder.push_json b

namespace jsonway

/-- Modelled from the spec: `jsonway::object(configure)` opens a fresh
ObjectBuilder, invokes the configuration closure exactly once on it,
finalizes, and wraps the result in success; a conversion failure inside the
closure (represented by the closure returning `Except.error`) makes the
whole call return that error, with no Value produced. -/
def object (configure : ObjectBuilder → Except JsonWayError ObjectBuilder) :
    Except JsonWayError Value :=
  (configure ObjectBuilder.new).map ObjectBuilder.unwrap

/-- Modelled from the spec: `jsonway::array(configure)` — symmetric to
`jsonway::object` for arrays. -/
def array (configure : ArrayBuilder → Except JsonWayError ArrayBuilder) :
    Except JsonWayError Value :=
  (configure ArrayBuilder.new).map ArrayBuilder.unwrap

end jsonway

/-- Modelled from the spec: the `Serializer` capability — an optional root
key plus a `build` operation populating an ObjectBuilder; `build` may consult
the external flag passed to `serialize` (conditional field population). -/
structure Serializer where
  root : Option String
  build : Bool → ObjectBuilder → ObjectBuilder

/-- Modelled from the spec: `serialize(extra)` builds the object with `build`
on a fresh builder and, when `root()` is present, wraps it under that single
key; when absent, returns the bare built object. -/
def Serializer.serialize (s : Serializer) (extra : Bool) : Value :=
  let built := (s.build extra ObjectBuilder.new).unwrap
  match s.root with
  | some k => Value.obj [(k, built)]
  | none => built

/-! ### The fuzz harness, translated from `src/fuzz/fuzz_targets/json_fuzzer.rs` -/

/-- `enum Category` of the harness. -/
inductive Category where
  | Alpha : Category
  | Beta : Category
  | Gamma : Category
  | Delta : Category

/-- The Rust `format!("\x7b:?\x7d", category)` on `Category` (derived Debug). -/
def Category.fmt : Category → String
  | .Alpha => "Alpha"
  | .Beta => "Beta"
  | .Gamma => "Gamma"
  | .Delta => "Delta"

/-- `struct Fuzz` of the harness. -/
structure Fuzz where
  name : String
  category : Category

/-- `generate_fuzz_objects()` — the fixed eight sample objects. -/
def generate_fuzz_objects : List Fuzz :=
  [⟨"FuzzOne", .Alpha⟩, ⟨"FuzzTwo", .Beta⟩, ⟨"FuzzThree", .Gamma⟩,
   ⟨"FuzzFour", .Delta⟩, ⟨"FuzzFive", .Alpha⟩, ⟨"FuzzSix", .Beta⟩,
   ⟨"FuzzSeven", .Gamma⟩, ⟨"FuzzEight", .Delta⟩]

/-- `FuzzSerializer` for a given `Fuzz`: `root()` is `Some("fuzz_object")`,
`build` sets the name and the Debug-formatted category (the flag passed to
`serialize` is not consulted by this implementation). -/
def FuzzSerializer (fuzz : Fuzz) : Serializer :=
  { root := some "fuzz_object"
    build := fun _ json =>
      (json.set "name" fuzz.name).set "category" fuzz.category.fmt }

/-- `extract_value(data, index)`: returns `Value::Null` when the index is at
or past the end of the data; otherwise picks one of seven shapes from
`data[index] % 7`, increments the index, and reads any further byte at the
incremented index taken modulo `data.len()`. -/
def extract_value (data : List Nat) (index : Nat) : Value × Nat :=
  if index ≥ data.length then
    (Value.null, index)
  else
    let choice := data.getD index 0 % 7
    let index' := index + 1
    match choice with
    | 0 => (Value.null, index')
    | 1 => (Value.bool (data.getD (index' % data.length) 0 % 2 = 0), index')
    | 2 => (Value.num (data.getD (index' % data.length) 0 : Nat), index')
    | 3 => (Value.str ("string_" ++ toString index'), index')
    | 4 => (Value.arr [Value.str ("array_value_" ++ toString index')], index')
    | 5 => (Value.obj [], index')
    | _ => (Value.arr [], index')

/-- `generate_random_number(data, index, upper_bound)`: increments the index,
then returns `data[index] % upper_bound` when the new index is in bounds and
`0` otherwise. -/
def generate_random_number (data : List Nat) (index upper_bound : Nat) :
    Nat × Nat :=
  let index' := index + 1
  if index' < data.length then (data.getD index' 0 % upper_bound, index')
  else (0, index')

/-- The `for` loop body of `fuzz_deeply_nested_object`, run `count` times:
each iteration forms the key from the current index, draws a chooser byte,
and inserts either a recursive value (`recur`, the depth-decremented call)
or an `extract_value` result. -/
def nestedObjLoop (data : List Nat) (recur : Nat → Value × Nat) :
    Nat → Nat → List (String × Value) → List (String × Value) × Nat
  | 0, index, acc => (acc, index)
  | count + 1, index, acc =>
      let key := "key_" ++ toString index
      let r := generate_random_number data index 10
      let v := if r.1 % 2 = 0 then recur r.2 else extract_value data r.2
      nestedObjLoop data recur count v.2 (mapInsert acc key v.1)

/-- The `for` loop body of `fuzz_deeply_nested_array`, run `count` times:
each iteration draws a chooser byte and pushes either a recursive value or an
`extract_value` result. -/
def nestedArrLoop (data : List Nat) (recur : Nat → Value × Nat) :
    Nat → Nat → List Value → List Value × Nat
  | 0, index, acc => (acc, index)
  | count + 1, index, acc =>
      let r := generate_random_number data index 10
      let v := if r.1 % 2 = 0 then recur r.2 else extract_value data r.2
      nestedArrLoop data recur count v.2 (acc ++ [v.1])

/-- `fuzz_deeply_nested_object(data, index, depth)`: returns `Value::Null`
when the depth is zero or the index is out of bounds, and otherwise builds a
map of `data[index+1] % 5` entries, each either one level deeper (depth
decreased by exactly one) or an `extract_value` leaf. -/
def fuzz_deeply_nested_object (data : List Nat) (index : Nat) :
    Nat → Value × Nat
  | 0 => (Value.null, index)
  | depth + 1 =>
      if index ≥ data.length then (Value.null, index)
      else
        let n := generate_random_number data index 5
        let r :=
          nestedObjLoop data (fun i => fuzz_deeply_nested_object data i depth)
            n.1 n.2 []
        (Value.obj r.1, r.2)

/-- `fuzz_deeply_nested_array(data, index, depth)`: returns an empty Array
when the depth is zero or the index is out of bounds, and otherwise builds an
array of `data[index+1] % 5` elements, each either one level deeper or an
`extract_value` leaf. -/
def fuzz_deeply_nested_array (data : List Nat) (index : Nat) :
    Nat → Value × Nat
  | 0 => (Value.arr [], index)
  | depth + 1 =>
      if index ≥ data.length then (Value.arr [], index)
      else
        let n := generate_random_number data index 5
        let r :=
          nestedArrLoop data (fun i => fuzz_deeply_nested_array data i depth)
            n.1 n.2 []
        (Value.arr r.1, r.2)

/-! ### Nesting depth of a Value tree -/

mutual

/-- Nesting depth of a Value: scalar leaves have depth 0, a container adds
one level above the deepest of its children (an empty container has depth
1). -/
def nestDepth : Value → Nat
  | Value.null => 0
  | Value.bool _ => 0
  | Value.num _ => 0
  | Value.str _ => 0
  | Value.arr xs => 1 + nestDepthList xs
  | Value.obj kvs => 1 + nestDepthKVs kvs

/-- Greatest nesting depth among a list of values. -/
def nestDepthList : List Value → Nat
  | [] => 0
  | v :: vs => max (nestDepth v) (nestDepthList vs)

/-- Greatest nesting depth among the values of a key-value list. -/
def nestDepthKVs : List (String × Value) → Nat
  | [] => 0
  | (_, v) :: kvs => max (nestDepth v) (nestDepthKVs kvs)

end

/-! ### The fuzz_target dispatcher -/

/-- The Rust `.unwrap()` on the `Result` of a top-level entry point: the
harness closures never fail, so the error branch (a panic in Rust) is
unreachable; `Value.null` stands in for it. -/
def expectOk : Except JsonWayError Value → Value
  | Except.ok v => v
  | Except.error _ => Value.null

/-- Loop of cases 2 and 14: push `count` values produced by
`fuzz_deeply_nested_object` at depth 5, threading the index. -/
def pushNestedObjects (data : List Nat) :
    Nat → Nat → ArrayBuilder → ArrayBuilder × Nat
  | 0, index, arr => (arr, index)
  | count + 1, index, arr =>
      let v := fuzz_deeply_nested_object data index 5
      pushNestedObjects data count v.2 (arr.push v.1)

/-- Loop of case 12: push `count` values produced by `extract_value`,
threading the index. -/
def pushExtracted (data : List Nat) :
    Nat → Nat → ArrayBuilder → ArrayBuilder × Nat
  | 0, index, arr => (arr, index)
  | count + 1, index, arr =>
      let v := extract_value data index
      pushExtracted data count v.2 (arr.push v.1)

/-- The `fuzz_target!` entry point of the harness.  Inputs shorter than two
bytes return immediately (`none`): no builder is constructed and no builder
operation runs.  Otherwise `data[0] % 15` selects a case and the list of
top-level Values that case produces is returned (`some`).  The mutable
`index` of the Rust code starts at 0 and is threaded explicitly, following
the Rust evaluation order. -/
def fuzz_target (data : List Nat) : Option (List Value) :=
  if data.length < 2 then none
  else
    some (
      match data.getD 0 0 % 15 with
      | 0 =>
          let (v1, i1) := extract_value data 0
          let (v2, i2) := extract_value data i1
          let (v3, _) := fuzz_deeply_nested_object data i2 5
          [expectOk (jsonway.object (fun json => Except.ok
            ((json.set "key1" v1).object "nested_object" (fun json =>
              (json.set "inner_key1" v2).set "inner_key2" v3))))]
      | 1 =>
          let (v1, i1) := extract_value data 0
          let (v2, i2) := extract_value data i1
          let (v3, _) := fuzz_deeply_nested_array data i2 5
          [expectOk (jsonway.array (fun arr => Except.ok
            ((arr.push v1).array (fun arr =>
              (arr.push v2).push_json v3))))]
      | 2 =>
          let (n, i1) := generate_random_number data 0 5
          [expectOk (jsonway.object (fun json => Except.ok
            (json.object "deeply_nested_object" (fun json =>
              json.array "deep_array" (fun json =>
                (pushNestedObjects data n i1 json).1)))))]
      | 3 =>
          let flag := decide (0 < data.length) &&
            decide (data.getD (0 % data.length) 0 % 2 = 0)
          generate_fuzz_objects.map (fun fuzz =>
            (FuzzSerializer fuzz).serialize flag)
      | 4 =>
          [(ArrayBuilder.new.objects generate_fuzz_objects (fun fuzz json =>
            (json.set "fuzz_key" fuzz.name).set "fuzz_category"
              fuzz.category.fmt)).unwrap]
      | 5 =>
          let fuzz0 := generate_fuzz_objects.getD 0 ⟨"", Category.Alpha⟩
          [(ObjectBuilder.new.object "object_key" (fun json =>
            (json.set "name" fuzz0.name).set "category"
              fuzz0.category.fmt)).unwrap]
      | 6 =>
          let (v1, i1) := fuzz_deeply_nested_array data 0 5
          let (v2, _) := fuzz_deeply_nested_object data i1 5
          [(ArrayBuilder.new.push v1).unwrap,
           (ObjectBuilder.new.set "object_key" v2).unwrap]
      | 7 =>
          [expectOk (jsonway.object (fun json => Except.ok json)),
           expectOk (jsonway.array (fun arr => Except.ok arr))]
      | 8 =>
          let large := Value.str (String.join (List.replicate 100 "large_value"))
          let small := Value.str "small_value"
          [((ObjectBuilder.new.set "large_data" large).set "small_data"
              small).unwrap]
      | 9 =>
          [((ArrayBuilder.new.push (Value.arr [])).push
              (Value.arr [Value.str "full_array_value"])).unwrap]
      | 10 =>
          [expectOk (jsonway.object (fun json => Except.ok
            (((json.set "null_key" Value.null).set "empty_string"
                (Value.str "")).set "large_string"
              (Value.str (String.join (List.replicate 1000 "x"))))))]
      | 11 =>
          [expectOk (jsonway.object (fun json => Except.ok
            ((json.set "duplicate_key" "value1").set "duplicate_key"
              "value2")))]
      | 12 =>
          let (n, i1) := generate_random_number data 0 100
          [expectOk (jsonway.array (fun arr => Except.ok
            (pushExtracted data n i1 arr).1))]
      | 13 =>
          let key := "key_" ++ toString (data.getD (0 % data.length) 0)
          let (v, _) := extract_value data 0
          [expectOk (jsonway.object (fun json => Except.ok
            (json.set key v)))]
      | 14 =>
          let (n, i1) := generate_random_number data 0 5
          [expectOk (jsonway.array (fun arr => Except.ok
            (pushNestedObjects data n i1 arr).1))]
      | _ => [])

/-! ### Lemmas about the ordered-mapping insert -/

theorem lookupKey_mapInsert (l : List (String × Value)) (k : String) (v : Value) :
    lookupKey k (mapInsert l k v) = some v := by
  induction l with
  | nil => simp [mapInsert, lookupKey]
  | cons hd tl ih =>
      obtain ⟨k', v'⟩ := hd
      by_cases h : k' = k
      · simp [mapInsert, lookupKey, h]
      · simp [mapInsert, lookupKey, h, ih]

theorem countKey_mapInsert (l : List (String × Value)) (k : String) (v : Value) :
    countKey k (mapInsert l k v)
      = if countKey k l = 0 then 1 else countKey k l := by
  induction l with
  | nil => simp [mapInsert, countKey]
  | cons hd tl ih =>
      obtain ⟨k', v'⟩ := hd
      by_cases h : k' = k
      · simp [mapInsert, countKey, h]
      · simp only [mapInsert, countKey, h, if_neg, if_false, ih]
        simp [h]

/-- C1 — For every ObjectBuilder whose accumulated mapping has at most one
entry for the key `k` (the map invariant), performing `set(k, v1)` followed
by `set(k, v2)` and finalizing yields an Object holding exactly one entry for
`k`, bound to `v2`: the duplicate `set` overwrites (last-write-wins) rather
than erroring. -/
theorem set_duplicate_key_last_write_wins (b : ObjectBuilder) (k : String)
    (v1 v2 : Value) (h : countKey k b.entries ≤ 1) :
    countKey k ((b.set k v1).set k v2).entries = 1 ∧
    lookupKey k ((b.set k v1).set k v2).entries = some v2 ∧
    ((b.set k v1).set k v2).unwrap = Value.obj ((b.set k v1).set k v2).entries := by
  refine ⟨?_, ?_, rfl⟩
  · show countKey k (mapInsert (mapInsert b.entries k v1) k v2) = 1
    rw [countKey_mapInsert, countKey_mapInsert]
    rcases Nat.lt_or_ge 0 (countKey k b.entries) with hpos | hzero
    · have h1 : countKey k b.entries = 1 := le_antisymm h hpos
      simp [h1]
    · have h0 : countKey k b.entries = 0 := Nat.le_zero.mp hzero
      simp [h0]
  · exact lookupKey_mapInsert _ k v2

theorem set_duplicate_key_last_write_wins_witness :
    countKey "k" ObjectBuilder.new.entries ≤ 1 ∧
    countKey "k"
      ((ObjectBuilder.new.set "k" (Value.num 1)).set "k" (Value.num 2)).entries = 1 ∧
    lookupKey "k"
      ((ObjectBuilder.new.set "k" (Value.num 1)).set "k" (Value.num 2)).entries
      = some (Value.num 2) :=
  ⟨by decide, (set_duplicate_key_last_write_wins ObjectBuilder.new "k"
      (Value.num 1) (Value.num 2) (by decide)).1,
    (set_duplicate_key_last_write_wins ObjectBuilder.new "k"
      (Value.num 1) (Value.num 2) (by decide)).2.1⟩

/-! ### Order preservation and batch mapping -/

theorem pushAll_elems (vs : List Value) (b : ArrayBuilder) :
    (b.pushAll vs).elems = b.elems ++ vs := by
  induction vs generalizing b with
  | nil => simp [ArrayBuilder.pushAll]
  | cons v vs ih =>
      show ((b.push_json v).pushAll vs).elems = b.elems ++ v :: vs
      rw [ih]
      simp [ArrayBuilder.push_json]

/-- C2 — A finite sequence of `push` calls on an ArrayBuilder appends exactly
the pushed values after the existing elements, in call order; finalizing a
fresh builder after the pushes yields the Array of exactly the pushed values,
none deduplicated or dropped. -/
theorem push_sequence_order_preserved (vs : List Value) (b : ArrayBuilder) :
    (b.pushAll vs).elems = b.elems ++ vs ∧
    (ArrayBuilder.new.pushAll vs).unwrap = Value.arr vs := by
  refine ⟨pushAll_elems vs b, ?_⟩
  show Value.arr (ArrayBuilder.new.pushAll vs).elems = Value.arr vs
  rw [pushAll_elems]
  rfl

theorem objects_elems {α : Type} (S : List α)
    (f : α → ObjectBuilder → ObjectBuilder) (b : ArrayBuilder) :
    (b.objects S f).elems
      = b.elems ++ S.map (fun it => (f it ObjectBuilder.new).unwrap) := by
  induction S generalizing b with
  | nil => simp [ArrayBuilder.objects]
  | cons it S ih =>
      show ((b.push_json (f it ObjectBuilder.new).unwrap).objects S f).elems = _
      rw [ih]
      simp [ArrayBuilder.push_json]

/-- C3 — `ArrayBuilder::objects(S, f)` appends exactly `|S|` elements in
source iteration order, the i-th appended element being the Object obtained
by running `f` on the i-th item of `S` with a fresh ObjectBuilder; applied to
an empty sequence it appends nothing and a fresh builder finalizes to the
empty Array, not an error. -/
theorem objects_batch_mapping {α : Type} (S : List α)
    (f : α → ObjectBuilder → ObjectBuilder) (b : ArrayBuilder) :
    (b.objects S f).elems
      = b.elems ++ S.map (fun it => (f it ObjectBuilder.new).unwrap) ∧
    (ArrayBuilder.new.objects S f).unwrap
      = Value.arr (S.map (fun it => (f it ObjectBuilder.new).unwrap)) ∧
    (ArrayBuilder.new.objects S f).elems.length = S.length ∧
    (b.objects ([] : List α) f) = b ∧
    (ArrayBuilder.new.objects ([] : List α) f).unwrap = Value.arr [] := by
  refine ⟨objects_elems S f b, ?_, ?_, rfl, rfl⟩
  · show Value.arr (ArrayBuilder.new.objects S f).elems = _
    rw [objects_elems]
    rfl
  · rw [objects_elems]
    simp [ArrayBuilder.new]

/-! ### Serializer root wrapping, entry points, push_json equivalence -/

/-- C4 — For every Serializer and flag, if `root()` is `Some k` then
`serialize` produces the Object built by `build` wrapped under the single key
`k`, and if `root()` is `None` then `serialize` produces the bare built
Object with no wrapping. -/
theorem serializer_root_wrapping (s : Serializer) (extra : Bool) (k : String) :
    (s.root = some k →
      s.serialize extra
        = Value.obj [(k, (s.build extra ObjectBuilder.new).unwrap)]) ∧
    (s.root = none →
      s.serialize extra = (s.build extra ObjectBuilder.new).unwrap) := by
  constructor
  · intro h
    simp [Serializer.serialize, h]
  · intro h
    simp [Serializer.serialize, h]

theorem serializer_root_wrapping_witness :
    (FuzzSerializer ⟨"FuzzOne", Category.Alpha⟩).root = some "fuzz_object" ∧
    (FuzzSerializer ⟨"FuzzOne", Category.Alpha⟩).serialize true
      = Value.obj [("fuzz_object",
          ((FuzzSerializer ⟨"FuzzOne", Category.Alpha⟩).build true
            ObjectBuilder.new).unwrap)] :=
  ⟨rfl, (serializer_root_wrapping (FuzzSerializer ⟨"FuzzOne", Category.Alpha⟩)
      true "fuzz_object").1 rfl⟩

/-- C5 — The top-level entry points `jsonway::object` and `jsonway::array`
apply the configuration closure exactly once, to a fresh builder, and the
whole result is a function of that single application: when the closure
completes with a builder the call returns `Ok` of its finalized Value, and
when any conversion inside the closure fails the call returns exactly that
error and no Value (no partially built mapping or sequence is observable). -/
theorem entry_points_run_closure_once
    (f : ObjectBuilder → Except JsonWayError ObjectBuilder)
    (g : ArrayBuilder → Except JsonWayError ArrayBuilder) :
    jsonway.object f = (f ObjectBuilder.new).map ObjectBuilder.unwrap ∧
    (∀ b, f ObjectBuilder.new = Except.ok b →
      jsonway.object f = Except.ok b.unwrap) ∧
    (∀ e, f ObjectBuilder.new = Except.error e →
      jsonway.object f = Except.error e) ∧
    jsonway.array g = (g ArrayBuilder.new).map ArrayBuilder.unwrap ∧
    (∀ b, g ArrayBuilder.new = Except.ok b →
      jsonway.array g = Except.ok b.unwrap) ∧
    (∀ e, g ArrayBuilder.new = Except.error e →
      jsonway.array g = Except.error e) := by
  refine ⟨rfl, ?_, ?_, rfl, ?_, ?_⟩
  · intro b h
    simp [jsonway.object, h, Except.map]
  · intro e h
    simp [jsonway.object, h, Except.map]
  · intro b h
    simp [jsonway.array, h, Except.map]
  · intro e h
    simp [jsonway.array, h, Except.map]

theorem entry_points_run_closure_once_witness :
    jsonway.object (fun json => Except.ok (json.set "a" (Value.num 1)))
      = Except.ok (Value.obj [("a", Value.num 1)]) ∧
    jsonway.array (fun _ => Except.error ⟨"unrepresentable number"⟩)
      = Except.error ⟨"unrepresentable number"⟩ :=
  ⟨(entry_points_run_closure_once
      (fun json => Except.ok (json.set "a" (Value.num 1)))
      (fun arr => Except.ok arr)).2.1 _ rfl,
   (entry_points_run_closure_once
      (fun json => Except.ok json)
      (fun _ => Except.error ⟨"unrepresentable number"⟩)).2.2.2.2.2 _ rfl⟩

/-- C6 — `push_json` appends exactly the same element as `push` specialized
to the `Value` type: the two operations agree on every builder and every
Value argument. -/
theorem push_json_eq_push (b : ArrayBuilder) (v : Value) :
    b.push_json v = b.push v := rfl

/-- C7 — JSON-tree construction is deterministic: the top-level entry points
are pure functions of the configuration closure, so two invocations with
equal closures produce equal results (equal Values on success or the same
error); no global or process-wide state exists in the model. -/
theorem construction_deterministic
    (f f' : ObjectBuilder → Except JsonWayError ObjectBuilder)
    (g g' : ArrayBuilder → Except JsonWayError ArrayBuilder)
    (hf : f = f') (hg : g = g') :
    jsonway.object f = jsonway.object f' ∧
    jsonway.array g = jsonway.array g' := by
  subst hf
  subst hg
  exact ⟨rfl, rfl⟩

theorem construction_deterministic_witness :
    jsonway.object (fun json => Except.ok (json.set "a" (Value.num 1)))
      = jsonway.object (fun json => Except.ok (json.set "a" (Value.num 1))) ∧
    jsonway.array (fun arr => Except.ok (arr.push_json Value.null))
      = jsonway.array (fun arr => Except.ok (arr.push_json Value.null)) :=
  construction_deterministic _ _ _ _ rfl rfl

/-! ### Safety of extract_value -/

/-- The seven fixed shapes `extract_value` can produce: Null, a Bool, a
Number, a String, a one-element Array holding a String, the empty Object,
and the empty Array. -/
def extractShape : Value → Bool
  | Value.null => true
  | Value.bool _ => true
  | Value.num _ => true
  | Value.str _ => true
  | Value.arr [] => true
  | Value.arr [Value.str _] => true
  | Value.obj [] => true
  | _ => false

/-- C8 — `extract_value` is total: when the index is at or past the end of
the data it returns `Value::Null` with the index untouched (reading
nothing); otherwise the data is nonempty and the subsequent byte access at
the incremented index taken modulo `data.len()` is in bounds; in every case
the result is one of the seven fixed Value shapes. -/
theorem extract_value_total_and_safe (data : List Nat) (index : Nat) :
    (index ≥ data.length → extract_value data index = (Value.null, index)) ∧
    extractShape (extract_value data index).1 = true ∧
    (index < data.length →
      0 < data.length ∧ (index + 1) % data.length < data.length) := by
  refine ⟨?_, ?_, ?_⟩
  · intro h
    simp [extract_value, h]
  · by_cases h : index ≥ data.length
    · simp [extract_value, h, extractShape]
    · unfold extract_value
      rw [if_neg h]
      dsimp only
      split <;> simp [extractShape]
  · intro h
    have hpos : 0 < data.length := Nat.lt_of_le_of_lt (Nat.zero_le _) h
    exact ⟨hpos, Nat.mod_lt _ hpos⟩

theorem extract_value_total_and_safe_witness :
    extract_value [3, 4] 2 = (Value.null, 2) ∧
    extractShape (extract_value [3, 4] 0).1 = true ∧
    (0 < ([3, 4] : List Nat).length ∧
      (0 + 1) % ([3, 4] : List Nat).length < ([3, 4] : List Nat).length) :=
  ⟨(extract_value_total_and_safe [3, 4] 2).1 (by decide),
   (extract_value_total_and_safe [3, 4] 0).2.1,
   (extract_value_total_and_safe [3, 4] 0).2.2 (by decide)⟩

/-! ### Depth bounds for the nested generators -/

theorem nestDepth_extract_value (data : List Nat) (index : Nat) :
    nestDepth (extract_value data index).1 ≤ 1 := by
  by_cases h : index ≥ data.length
  · simp [extract_value, h, nestDepth]
  · unfold extract_value
    rw [if_neg h]
    dsimp only
    split <;> simp [nestDepth, nestDepthList, nestDepthKVs]

theorem nestDepthKVs_mapInsert (l : List (String × Value)) (k : String)
    (v : Value) :
    nestDepthKVs (mapInsert l k v) ≤ max (nestDepth v) (nestDepthKVs l) := by
  induction l with
  | nil => simp [mapInsert, nestDepthKVs]
  | cons hd tl ih =>
      obtain ⟨k', v'⟩ := hd
      by_cases h : k' = k
      · simp only [mapInsert, h, if_pos, nestDepthKVs]
        omega
      · simp only [mapInsert, h, if_neg, not_false_iff, nestDepthKVs]
        omega

theorem nestDepthList_append (l : List Value) (v : Value) :
    nestDepthList (l ++ [v]) = max (nestDepthList l) (nestDepth v) := by
  induction l with
  | nil => simp [nestDepthList]
  | cons hd tl ih =>
      simp only [List.cons_append, nestDepthList, List.append_eq]
      rw [ih]
      omega

theorem nestedObjLoop_depth (data : List Nat) (recur : Nat → Value × Nat)
    (D : Nat) (hD : 1 ≤ D) (hrec : ∀ i, nestDepth (recur i).1 ≤ D) :
    ∀ count index acc,
      nestDepthKVs (nestedObjLoop data recur count index acc).1
        ≤ max D (nestDepthKVs acc) := by
  intro count
  induction count with
  | zero =>
      intro index acc
      simp [nestedObjLoop]
  | succ count ih =>
      intro index acc
      unfold nestedObjLoop
      dsimp only
      have hv : nestDepth (if (generate_random_number data index 10).1 % 2 = 0
          then recur (generate_random_number data index 10).2
          else extract_value data (generate_random_number data index 10).2).1
          ≤ D := by
        split
        · exact hrec _
        · exact le_trans (nestDepth_extract_value data _) hD
      refine le_trans (ih _ _) ?_
      have h2 := nestDepthKVs_mapInsert acc ("key_" ++ toString index)
        (if (generate_random_number data index 10).1 % 2 = 0
          then recur (generate_random_number data index 10).2
          else extract_value data (generate_random_number data index 10).2).1
      omega

theorem nestedArrLoop_depth (data : List Nat) (recur : Nat → Value × Nat)
    (D : Nat) (hD : 1 ≤ D) (hrec : ∀ i, nestDepth (recur i).1 ≤ D) :
    ∀ count index acc,
      nestDepthList (nestedArrLoop data recur count index acc).1
        ≤ max D (nestDepthList acc) := by
  intro count
  induction count with
  | zero =>
      intro index acc
      simp [nestedArrLoop]
  | succ count ih =>
      intro index acc
      unfold nestedArrLoop
      dsimp only
      have hv : nestDepth (if (generate_random_number data index 10).1 % 2 = 0
          then recur (generate_random_number data index 10).2
          else extract_value data (generate_random_number data index 10).2).1
          ≤ D := by
        split
        · exact hrec _
        · exact le_trans (nestDepth_extract_value data _) hD
      refine le_trans (ih _ _) ?_
      rw [nestDepthList_append]
      omega

theorem fuzz_deeply_nested_object_depth (data : List Nat) :
    ∀ depth index,
      nestDepth (fuzz_deeply_nested_object data index depth).1 ≤ depth + 1 := by
  intro depth
  induction depth with
  | zero =>
      intro index
      simp [fuzz_deeply_nested_object, nestDepth]
  | succ depth ih =>
      intro index
      unfold fuzz_deeply_nested_object
      by_cases h : index ≥ data.length
      · rw [if_pos h]
        simp [nestDepth]
      · rw [if_neg h]
        dsimp only
        have hloop := nestedObjLoop_depth data
          (fun i => fuzz_deeply_nested_object data i depth) (depth + 1)
          (Nat.succ_le_succ (Nat.zero_le _)) (fun i => ih i)
          (generate_random_number data index 5).1
          (generate_random_number data index 5).2 []
        simp only [nestDepthKVs] at hloop
        simp only [nestDepth]
        omega

theorem fuzz_deeply_nested_array_depth (data : List Nat) :
    ∀ depth index,
      nestDepth (fuzz_deeply_nested_array data index depth).1 ≤ depth + 1 := by
  intro depth
  induction depth with
  | zero =>
      intro index
      simp [fuzz_deeply_nested_array, nestDepth, nestDepthList]
  | succ depth ih =>
      intro index
      unfold fuzz_deeply_nested_array
      by_cases h : index ≥ data.length
      · rw [if_pos h]
        simp [nestDepth, nestDepthList]
      · rw [if_neg h]
        dsimp only
        have hloop := nestedArrLoop_depth data
          (fun i => fuzz_deeply_nested_array data i depth) (depth + 1)
          (Nat.succ_le_succ (Nat.zero_le _)) (fun i => ih i)
          (generate_random_number data index 5).1
          (generate_random_number data index 5).2 []
        simp only [nestDepthList] at hloop
        simp only [nestDepth]
        omega

/-- C9 counterexample — at the depth argument used by the harness, 5, the input bytes
`[0,1,0,1,0,1,0,1,0,1,81]` drive four even chooser bytes (recursing down to
depth 1) and then an odd chooser byte whose `extract_value` leaf is a
one-element array, so both generators produce a tree of nesting depth 6,
exceeding the initial depth argument 5. -/
theorem nested_generator_depth_counterexample :
    5 < nestDepth
      (fuzz_deeply_nested_object [0, 1, 0, 1, 0, 1, 0, 1, 0, 1, 81] 0 5).1 ∧
    5 < nestDepth
      (fuzz_deeply_nested_array [0, 1, 0, 1, 0, 1, 0, 1, 0, 1, 81] 0 5).1 := by
  constructor <;> decide

/-- C9 (amended) — Both generators terminate on every input (they are total
functions of the model: each recursive call decreases the depth by exactly
one and recursion stops at depth 0 or when the index passes the end of the
data), and the produced Value tree has nesting depth at most the initial
depth argument plus one: the `extract_value` leaves may themselves be
one-element arrays, and the empty-array base case already has depth 1, so
the bound `depth` itself does not hold, but `depth + 1` does. -/
theorem nested_generators_terminate_depth_bounded (data : List Nat)
    (index depth : Nat) :
    nestDepth (fuzz_deeply_nested_object data index depth).1 ≤ depth + 1 ∧
    nestDepth (fuzz_deeply_nested_array data index depth).1 ≤ depth + 1 :=
  ⟨fuzz_deeply_nested_object_depth data depth index,
   fuzz_deeply_nested_array_depth data depth index⟩

/-- C10 — For every input of length less than 2 the fuzz entry point returns
immediately (`none`): no builder is constructed and no builder operation or
top-level entry point runs; for inputs of length at least 2 a case of the
dispatcher runs and produces its outcomes (`some`), so builder operations
are only reachable for inputs of length at least 2. -/
theorem fuzz_target_short_input_guard (data : List Nat) :
    (data.length < 2 → fuzz_target data = none) ∧
    (2 ≤ data.length → ∃ vs, fuzz_target data = some vs) := by
  constructor
  · intro h
    simp [fuzz_target, h]
  · intro h
    rw [fuzz_target, if_neg (by omega)]
    exact ⟨_, rfl⟩

theorem fuzz_target_short_input_guard_witness :
    fuzz_target [7] = none ∧ ∃ vs, fuzz_target [7, 0] = some vs :=
  ⟨(fuzz_target_short_input_guard [7]).1 (by decide),
   (fuzz_target_short_input_guard [7, 0]).2 (by decide)⟩
